import Mathlib

/-!
Verification of the authentication/session core of the gearbox/apex backend:
password hashing policy (src/api/security/password.py), JWT access-token
issuance/verification (src/api/security/jwt.py), and refresh-token rotation
with theft detection (src/api/services/auth.py, src/db/repositories/user.py).

The Python code is embedded shallowly: the database session becomes an explicit
`AuthState` value threaded through the operations, effectful randomness
(uuid4, secrets.token_urlsafe, argon2 salts) becomes explicit arguments,
`datetime.now` becomes an explicit integer timestamp argument, and raised
exceptions become `Except` results paired with the post-state (mutations
flushed to the session before a raise remain in the state, matching the
deployed behaviour: the route layer catches the auth errors and the session
dependency commits).
-/

/-- Modelled from the spec: Python's hashlib SHA-256 hex digest used by
`hash_token` in src/api/security/password.py. The claims depend only on the
digest being a deterministic injective function of the token string
(collision-freeness idealized), so it is modelled as an injective tag. -/
def hash_token (token : String) : String :=
  "sha256." ++ token

/-- Argon2 cost parameters of PasswordService (src/api/security/password.py):
time_cost, memory_cost (KiB), parallelism. -/
structure Argon2Params where
  time_cost : Nat := 3
  memory_cost : Nat := 65536
  parallelism : Nat := 4
deriving DecidableEq, Repr

/-- Modelled from the spec: an argon2 encoded hash string, which self-describes
its parameters and salt and carries the digest. The digest is idealized as the
(salt, password) pair, i.e. the hash function is treated as collision-free. -/
structure Argon2Encoded where
  params : Argon2Params
  salt : String
  digest : String × String
deriving DecidableEq, Repr

/-- Modelled from the spec: the space of Python strings passed as hashes is
partitioned into well-formed argon2 encoded hashes and everything else
(malformed "garbage" strings). -/
inductive HashStr where
  | valid (h : Argon2Encoded)
  | garbage (s : String)
deriving DecidableEq, Repr

/-- Idealized argon2 digest: determined by salt and password, collision-free. -/
def idealDigest (salt password : String) : String × String :=
  (salt, password)

/-- Errors of the argon2 library caught by PasswordService.verify:
VerifyMismatchError and InvalidHashError. -/
inductive Argon2Err where
  | verifyMismatch
  | invalidHash
deriving DecidableEq, Repr

/-- Modelled from the spec: the argon2 library's raw verifier. Raises
InvalidHashError on a malformed hash string, VerifyMismatchError when the
password does not match, returns normally on a match. -/
def argon2Verify (h : HashStr) (password : String) : Except Argon2Err Unit :=
  match h with
  | .garbage _ => .error .invalidHash
  | .valid a =>
    if a.digest = idealDigest a.salt password then .ok () else .error .verifyMismatch

namespace PasswordService

/-- PasswordService.hash (src/api/security/password.py): argon2 hash of the
password with a fresh random salt (the salt is an explicit argument here). -/
def hash (pp : Argon2Params) (salt password : String) : HashStr :=
  .valid { params := pp, salt := salt, digest := idealDigest salt password }

/-- PasswordService.verify (src/api/security/password.py): calls the argon2
verifier and catches exactly VerifyMismatchError and InvalidHashError,
returning False for both; these are the only error kinds of the model, so the
function is total (it never raises). -/
def verify (h : HashStr) (password : String) : Bool :=
  match argon2Verify h password with
  | .ok _ => true
  | .error .verifyMismatch => false
  | .error .invalidHash => false

/-- PasswordService.needs_rehash: true when the hash's embedded parameters
differ from the configured policy. (On a malformed hash the library raises;
that path is unreachable in the service, which only calls this after a
successful verify; it is modelled as true.) -/
def needs_rehash (pp : Argon2Params) (h : HashStr) : Bool :=
  match h with
  | .valid a => decide (a.params ≠ pp)
  | .garbage _ => true

end PasswordService

/-- User row (src/db/models/user.py). Timestamps and subscription tier carry
no weight in the claims and are omitted; is_active defaults to true. -/
structure User where
  id : Nat
  email : String
  password_hash : HashStr
  display_name : Option String
  is_active : Bool
deriving DecidableEq, Repr

/-- RefreshToken row (src/db/models/user.py). created_at is omitted. -/
structure RefreshToken where
  id : Nat
  user_id : Nat
  token_hash : String
  family_id : Nat
  expires_at : Int
  is_revoked : Bool
  revoked_at : Option Int
  user_agent : Option String
  ip_address : Option String
deriving DecidableEq, Repr

/-- The database state seen through UserRepository: the users table and the
refresh_tokens table. -/
structure AuthState where
  users : List User
  tokens : List RefreshToken
deriving DecidableEq, Repr

/-- Python str.lower as used for email normalization, modelled as
character-wise lowercasing of the string's characters. -/
def normalizeEmail (e : String) : String :=
  String.mk (e.data.map Char.toLower)

/-- UserRepository.email_exists (src/db/repositories/user.py): count of users
whose stored email equals the lowercased input, compared with zero. The
exclude_user_id parameter is never passed by AuthService and is omitted. -/
def email_exists (st : AuthState) (email : String) : Bool :=
  decide (0 < st.users.countP (fun u => u.email == normalizeEmail email))

/-- UserRepository.create_user: inserts a user row with the lowercased email;
is_active takes the column default true. -/
def create_user (st : AuthState) (id : Nat) (email : String) (password_hash : HashStr)
    (display_name : Option String) : User × AuthState :=
  let u : User :=
    { id := id, email := normalizeEmail email, password_hash := password_hash,
      display_name := display_name, is_active := true }
  (u, { st with users := st.users ++ [u] })

/-- UserRepository.get_user_by_email: first user row matching the lowercased
email. -/
def get_user_by_email (st : AuthState) (email : String) : Option User :=
  st.users.find? (fun u => u.email == normalizeEmail email)

/-- UserRepository.get_active_user: user row with the given id and
is_active = true. -/
def get_active_user (st : AuthState) (user_id : Nat) : Option User :=
  st.users.find? (fun u => u.id == user_id && u.is_active)

/-- UserRepository.update_user restricted to the password_hash field, the only
update AuthService performs (the opportunistic rehash on login). -/
def update_user_password (st : AuthState) (user_id : Nat) (password_hash : HashStr) : AuthState :=
  { st with
    users := st.users.map (fun u =>
      if u.id == user_id then { u with password_hash := password_hash } else u) }

/-- UserRepository.soft_delete_user: update_user(user_id, is_active=False). -/
def soft_delete_user (st : AuthState) (user_id : Nat) : AuthState :=
  { st with
    users := st.users.map (fun u =>
      if u.id == user_id then { u with is_active := false } else u) }

/-- UserRepository.create_refresh_token: inserts a token row. -/
def create_refresh_token (st : AuthState) (tok : RefreshToken) : AuthState :=
  { st with tokens := st.tokens ++ [tok] }

/-- UserRepository.get_refresh_token_by_hash: token row matching the hash,
with no filter on is_revoked or expiry. -/
def get_refresh_token_by_hash (st : AuthState) (token_hash : String) : Option RefreshToken :=
  st.tokens.find? (fun t => t.token_hash == token_hash)

/-- The row update applied by UserRepository.revoke_refresh_token to rows
matching the token id. -/
def idRevoke (token_id : Nat) (now : Int) (t : RefreshToken) : RefreshToken :=
  if t.id == token_id then { t with is_revoked := true, revoked_at := some now } else t

/-- UserRepository.revoke_refresh_token: UPDATE ... WHERE id = token_id SET
is_revoked = true, revoked_at = now; returns rowcount > 0. -/
def revoke_refresh_token (st : AuthState) (token_id : Nat) (now : Int) : Bool × AuthState :=
  (st.tokens.any (fun t => t.id == token_id),
   { st with tokens := st.tokens.map (idRevoke token_id now) })

/-- The row update applied by UserRepository.revoke_token_family to unrevoked
rows of the family. -/
def famRevoke (family_id : Nat) (now : Int) (t : RefreshToken) : RefreshToken :=
  if t.family_id == family_id && !t.is_revoked then
    { t with is_revoked := true, revoked_at := some now }
  else t

/-- UserRepository.revoke_token_family: single bulk UPDATE ... WHERE
family_id = fid AND is_revoked = false; returns the matched rowcount. -/
def revoke_token_family (st : AuthState) (family_id : Nat) (now : Int) : Nat × AuthState :=
  (st.tokens.countP (fun t => t.family_id == family_id && !t.is_revoked),
   { st with tokens := st.tokens.map (famRevoke family_id now) })

/-- The row update applied by UserRepository.revoke_all_user_tokens. -/
def userRevoke (user_id : Nat) (now : Int) (t : RefreshToken) : RefreshToken :=
  if t.user_id == user_id && !t.is_revoked then
    { t with is_revoked := true, revoked_at := some now }
  else t

/-- UserRepository.revoke_all_user_tokens: bulk UPDATE ... WHERE
user_id = uid AND is_revoked = false; returns the matched rowcount. -/
def revoke_all_user_tokens (st : AuthState) (user_id : Nat) (now : Int) : Nat × AuthState :=
  (st.tokens.countP (fun t => t.user_id == user_id && !t.is_revoked),
   { st with tokens := st.tokens.map (userRevoke user_id now) })

/-- A JSON claim value of an access-token payload (the code only puts strings
and integer timestamps into payloads). -/
inductive JVal where
  | s (v : String)
  | n (v : Int)
deriving DecidableEq, Repr

/-- A Python dict of claims, as an association list in insertion order. -/
abbrev Dict := List (String × JVal)

/-- Python dict lookup d.get(k): value of the key, if present. -/
def dget (d : Dict) (k : String) : Option JVal :=
  (d.find? (fun kv => kv.1 == k)).map (fun kv => kv.2)

/-- Python dict assignment d[k] = v: replaces the value at an existing key,
otherwise appends the pair. -/
def dset : Dict → String → JVal → Dict
  | [], k, v => [(k, v)]
  | kv :: rest, k, v =>
    if kv.1 == k then (k, v) :: rest else kv :: dset rest k v

/-- Python dict merge d |= e: assigns every pair of e into d, later pairs
overriding earlier ones. -/
def dmerge (d e : Dict) : Dict :=
  e.foldl (fun acc kv => dset acc kv.1 kv.2) d

/-- JWTConfig (src/api/security/jwt.py). -/
structure JWTConfig where
  secret_key : String
  algorithm : String := "HS256"
  access_token_expire_minutes : Int := 15
  refresh_token_expire_days : Int := 7
  issuer : Option String := none
  audience : Option String := none
deriving DecidableEq, Repr

/-- Modelled from the spec: a serialized JWT. The signature of an HMAC-signed
token is idealized as unforgeable: it records the algorithm, the key and the
payload it was computed over, and verification compares them. -/
structure Jwt where
  payload : Dict
  sigAlg : String
  sigKey : String
  sigPayload : Dict
deriving DecidableEq, Repr

/-- Modelled from the spec: pyjwt's jwt.encode with an ideal MAC. -/
def jwtEncode (payload : Dict) (key alg : String) : Jwt :=
  { payload := payload, sigAlg := alg, sigKey := key, sigPayload := payload }

/-- Issuer claim validation of pyjwt's jwt.decode: no check when no issuer is
expected; otherwise the payload must carry exactly that iss claim. -/
def issOk (payload : Dict) : Option String → Bool
  | none => true
  | some i => dget payload "iss" == some (.s i)

/-- Audience claim validation of pyjwt's jwt.decode: checked only when an
expected audience is supplied. -/
def audOk (payload : Dict) : Option String → Bool
  | none => true
  | some a => dget payload "aud" == some (.s a)

/-- Modelled from the spec: pyjwt's jwt.decode with a required-claims option:
verifies the signature, requires the listed claims, rejects a token whose
integer exp is not in the future, validates issuer/audience when configured;
any failure collapses to none (the caller catches the exceptions). -/
def jwtDecode (tok : Jwt) (key alg : String) (req : List String)
    (issuer audience : Option String) (now : Int) : Option Dict :=
  if tok.sigKey == key && tok.sigAlg == alg && decide (tok.sigPayload = tok.payload)
      && req.all (fun c => (dget tok.payload c).isSome) then
    match dget tok.payload "exp" with
    | some (.n e) =>
      if e ≤ now then none
      else if issOk tok.payload issuer && audOk tok.payload audience then
        some tok.payload
      else none
    | some (.s _) => none
    | none => none
  else none

/-- TokenPayload (src/api/security/jwt.py): the decoded access-token claims. -/
structure TokenPayload where
  sub : JVal
  exp : JVal
  iat : JVal
  jti : JVal
  type : JVal
deriving DecidableEq, Repr

/-- Modelled from the spec: Python's str(UUID) rendering, abstracted to an
injective rendering of identifiers; the concrete character format carries no
weight in the claims. -/
def uuidStr (n : Nat) : String :=
  String.mk (List.replicate (n + 1) 'u')

/-- Modelled from the spec: Python's UUID(string) constructor, the partial
inverse of the rendering; any string outside its image raises ValueError,
modelled as none. -/
def uuidParse? (s : String) : Option Nat :=
  if !s.data.isEmpty && s.data.all (fun c => c == 'u') then
    some (s.data.length - 1)
  else none

/-- JWTService.create_access_token (src/api/security/jwt.py): builds the
payload sub/exp/iat/jti/type, adds iss and aud when the configured values are
truthy (a Python check, so the empty string also counts as absent), merges
extra_claims over it, and signs. The fresh jti is an explicit argument; a
caller-supplied None jti and empty extra_claims correspond to jti drawn fresh
and extra = []. Returns the token and the expiry timestamp. -/
def create_access_token (cfg : JWTConfig) (user_id : Nat) (jti : String)
    (extra_claims : Dict) (now : Int) : Jwt × Int :=
  let expires_at : Int := now + 60 * cfg.access_token_expire_minutes
  let payload : Dict :=
    [("sub", .s (uuidStr user_id)), ("exp", .n expires_at), ("iat", .n now),
     ("jti", .s jti), ("type", .s "access")]
  let payload :=
    match cfg.issuer with
    | some i => if i == "" then payload else payload ++ [("iss", .s i)]
    | none => payload
  let payload :=
    match cfg.audience with
    | some a => if a == "" then payload else payload ++ [("aud", .s a)]
    | none => payload
  let payload := dmerge payload extra_claims
  (jwtEncode payload cfg.secret_key cfg.algorithm, expires_at)

/-- JWTService.decode_access_token: pyjwt decode requiring sub/exp/iat/jti,
then the type claim must equal "access"; all failures return None. -/
def decode_access_token (cfg : JWTConfig) (tok : Jwt) (now : Int) : Option TokenPayload :=
  match jwtDecode tok cfg.secret_key cfg.algorithm ["sub", "exp", "iat", "jti"]
      cfg.issuer cfg.audience now with
  | none => none
  | some payload =>
    if dget payload "type" == some (.s "access") then
      match dget payload "sub", dget payload "exp", dget payload "iat", dget payload "jti" with
      | some sub, some exp, some iat, some jti =>
        some { sub := sub, exp := exp, iat := iat, jti := jti,
               type := (dget payload "type").getD (.s "access") }
      | _, _, _, _ => none
    else none

/-- Python exceptions of the subject-parsing path: UUID(s) raises ValueError
on a malformed string (caught by the code) and a TypeError on a non-string
subject (not caught). -/
inductive PyErr where
  | valueErr
  | typeErr
deriving DecidableEq, Repr

/-- Python's UUID constructor applied to a decoded claim value. -/
def pyUUID (v : JVal) : Except PyErr Nat :=
  match v with
  | .s s =>
    match uuidParse? s with
    | some n => .ok n
    | none => .error .valueErr
  | .n _ => .error .typeErr

/-- JWTService.get_user_id_from_token: decode, then parse the subject as a
UUID, catching only ValueError (a TypeError on a non-string subject would
propagate, hence the Except result). -/
def get_user_id_from_token (cfg : JWTConfig) (tok : Jwt) (now : Int) :
    Except PyErr (Option Nat) :=
  match decode_access_token cfg tok now with
  | none => .ok none
  | some p =>
    match pyUUID p.sub with
    | .ok n => .ok (some n)
    | .error .valueErr => .ok none
    | .error .typeErr => .error .typeErr

/-- The failure taxonomy of AuthService (src/api/services/auth.py). -/
inductive AuthErr where
  | invalidCredentials
  | emailAlreadyExists
  | userInactive
  | invalidRefreshToken
  | tokenReuseDetected
deriving DecidableEq, Repr

/-- TokenPair (src/api/services/auth.py): the access token, the raw refresh
token, and the access-token expiry metadata. -/
structure TokenPair where
  access_token : Jwt
  refresh_token : String
  expires_at : Int
  expires_in : Int
deriving DecidableEq, Repr

/-- The fresh random values drawn during one _create_token_pair call: the jti
of the access token, the raw refresh token from generate_token(32), the new
token row id from uuid4(), and the uuid4() used as family id when none is
supplied. -/
structure FreshPair where
  jti : String
  rawRefresh : String
  tokenRowId : Nat
  newFamilyId : Nat
deriving DecidableEq, Repr

/-- The refresh-token row inserted by AuthService._create_token_pair. -/
def mintedToken (cfg : JWTConfig) (user_id : Nat) (family_id : Option Nat)
    (user_agent ip_address : Option String) (now : Int) (fr : FreshPair) : RefreshToken :=
  { id := fr.tokenRowId, user_id := user_id,
    token_hash := hash_token fr.rawRefresh,
    family_id := family_id.getD fr.newFamilyId,
    expires_at := now + 86400 * cfg.refresh_token_expire_days,
    is_revoked := false, revoked_at := none,
    user_agent := user_agent, ip_address := ip_address }

/-- AuthService._create_token_pair: one access token via JWTService, one
refresh token row persisted with its SHA-256 hash, in the supplied family or a
fresh one ("family_id or uuid4()": a UUID object is always truthy). -/
def create_token_pair (cfg : JWTConfig) (st : AuthState) (user_id : Nat)
    (family_id : Option Nat) (user_agent ip_address : Option String) (now : Int)
    (fr : FreshPair) : TokenPair × AuthState :=
  let atPair := create_access_token cfg user_id fr.jti [] now
  let st2 := create_refresh_token st (mintedToken cfg user_id family_id user_agent ip_address now fr)
  ({ access_token := atPair.1, refresh_token := fr.rawRefresh,
     expires_at := atPair.2, expires_in := 60 * cfg.access_token_expire_minutes }, st2)

/-- AuthService.register: fail with EmailAlreadyExists when the email is
taken, otherwise create the user and issue a token pair in a fresh family.
The uuid4() user id and the argon2 salt are explicit arguments. -/
def register (cfg : JWTConfig) (pp : Argon2Params) (st : AuthState)
    (email password : String) (display_name : Option String)
    (newUserId : Nat) (salt : String) (now : Int) (fr : FreshPair) :
    Except AuthErr (User × TokenPair) × AuthState :=
  if email_exists st email then (.error .emailAlreadyExists, st)
  else
    let password_hash := PasswordService.hash pp salt password
    let created := create_user st newUserId email password_hash display_name
    let pairSt := create_token_pair cfg created.2 newUserId none none none now fr
    (.ok (created.1, pairSt.1), pairSt.2)

/-- AuthService.login: look up by email (the user-absent branch performs a
dummy hash with no state effect), reject an inactive user, verify the
password, opportunistically rehash, then issue a token pair in a fresh
family. -/
def login (cfg : JWTConfig) (pp : Argon2Params) (st : AuthState)
    (email password : String) (user_agent ip_address : Option String)
    (rehashSalt : String) (now : Int) (fr : FreshPair) :
    Except AuthErr (User × TokenPair) × AuthState :=
  match get_user_by_email st email with
  | none => (.error .invalidCredentials, st)
  | some user =>
    if !user.is_active then (.error .userInactive, st)
    else if !PasswordService.verify user.password_hash password then
      (.error .invalidCredentials, st)
    else
      let st1 :=
        if PasswordService.needs_rehash pp user.password_hash then
          update_user_password st user.id (PasswordService.hash pp rehashSalt password)
        else st
      let pairSt := create_token_pair cfg st1 user.id none user_agent ip_address now fr
      (.ok (user, pairSt.1), pairSt.2)

/-- AuthService.refresh_tokens: look up the presented token by hash; a revoked
stored token triggers the theft response (revoke the whole family, fail with
TokenReuseDetected); then the expiry check, the active-user check, and the
rotation: revoke the consumed token and issue the successor in the same
family. -/
def refresh_tokens (cfg : JWTConfig) (st : AuthState) (refresh_token : String)
    (user_agent ip_address : Option String) (now : Int) (fr : FreshPair) :
    Except AuthErr TokenPair × AuthState :=
  match get_refresh_token_by_hash st (hash_token refresh_token) with
  | none => (.error .invalidRefreshToken, st)
  | some stored =>
    if stored.is_revoked then
      (.error .tokenReuseDetected, (revoke_token_family st stored.family_id now).2)
    else if stored.expires_at < now then (.error .invalidRefreshToken, st)
    else
      match get_active_user st stored.user_id with
      | none => (.error .userInactive, st)
      | some _ =>
        let st1 := (revoke_refresh_token st stored.id now).2
        let pairSt :=
          create_token_pair cfg st1 stored.user_id (some stored.family_id)
            user_agent ip_address now fr
        (.ok pairSt.1, pairSt.2)

/-- AuthService.logout: hash and look up (with no filter on is_revoked); when
found, revoke by id and return true, otherwise false. -/
def logout (st : AuthState) (refresh_token : String) (now : Int) : Bool × AuthState :=
  match get_refresh_token_by_hash st (hash_token refresh_token) with
  | none => (false, st)
  | some stored =>
    (true, (revoke_refresh_token st stored.id now).2)

/-- AuthService.logout_all: revoke every unrevoked token of the user, return
the count. -/
def logout_all (st : AuthState) (user_id : Nat) (now : Int) : Nat × AuthState :=
  revoke_all_user_tokens st user_id now

/-- A token is live (unrevoked) in the given family. -/
def liveInFam (family_id : Nat) (t : RefreshToken) : Bool :=
  t.family_id == family_id && !t.is_revoked

/-- The token-family invariant of the spec: at most one unrevoked refresh
token per family. -/
def one_live_per_family (st : AuthState) : Prop :=
  ∀ fid : Nat, st.tokens.countP (liveInFam fid) ≤ 1

/-- A list containing two distinct elements has length at least two. -/
theorem two_le_length_of_two_mem {α : Type} {l : List α} {a b : α}
    (ha : a ∈ l) (hb : b ∈ l) (hne : a ≠ b) : 2 ≤ l.length := by
  induction l with
  | nil => cases ha
  | cons x xs ih =>
    rcases List.mem_cons.mp ha with rfl | ha'
    · rcases List.mem_cons.mp hb with rfl | hb'
      · exact absurd rfl hne
      · have := List.length_pos_of_mem hb'
        simp only [List.length_cons]
        omega
    · rcases List.mem_cons.mp hb with rfl | hb'
      · have := List.length_pos_of_mem ha'
        simp only [List.length_cons]
        omega
      · have := ih ha' hb'
        simp only [List.length_cons]
        omega

/-- Two distinct members both satisfying a predicate force a count of at
least two. -/
theorem two_le_countP {α : Type} {l : List α} {p : α → Bool} {a b : α}
    (ha : a ∈ l) (hb : b ∈ l) (hne : a ≠ b)
    (hpa : p a = true) (hpb : p b = true) : 2 ≤ l.countP p := by
  rw [List.countP_eq_length_filter]
  exact two_le_length_of_two_mem (List.mem_filter.mpr ⟨ha, hpa⟩)
    (List.mem_filter.mpr ⟨hb, hpb⟩) hne

/-- When at most one element satisfies p, and t is such an element, a
predicate q that entails p but excludes t is satisfied by nothing. -/
theorem countP_eq_zero_of_unique {α : Type} {l : List α} {p q : α → Bool} {t : α}
    (hle : l.countP p ≤ 1) (hmem : t ∈ l) (hpt : p t = true)
    (hq : ∀ x, q x = true → p x = true ∧ x ≠ t) : l.countP q = 0 := by
  by_contra h
  obtain ⟨x, hx, hqx⟩ := List.countP_pos_iff.mp (Nat.pos_of_ne_zero h)
  obtain ⟨hpx, hne⟩ := hq x hqx
  exact absurd (two_le_countP hx hmem hne hpx hpt) (by omega)

/-- Revoking by token id can only lower liveness, and kills every token with
the given id. -/
theorem liveInFam_idRevoke {fid tid : Nat} {now : Int} {t : RefreshToken} :
    liveInFam fid (idRevoke tid now t) = (liveInFam fid t && !(t.id == tid)) := by
  by_cases h : t.id == tid <;>
    simp [liveInFam, idRevoke, h]

/-- Family revocation can only lower liveness. -/
theorem liveInFam_famRevoke {fid fid0 : Nat} {now : Int} {t : RefreshToken}
    (h : liveInFam fid (famRevoke fid0 now t) = true) : liveInFam fid t = true := by
  unfold famRevoke at h
  split at h
  · simp [liveInFam] at h
  · exact h

/-- User-wide revocation can only lower liveness. -/
theorem liveInFam_userRevoke {fid uid : Nat} {now : Int} {t : RefreshToken}
    (h : liveInFam fid (userRevoke uid now t) = true) : liveInFam fid t = true := by
  unfold userRevoke at h
  split at h
  · simp [liveInFam] at h
  · exact h

/-- Dict lookup on a cons cell. -/
theorem dget_cons (kv : String × JVal) (rest : Dict) (k : String) :
    dget (kv :: rest) k = if kv.1 == k then some kv.2 else dget rest k := by
  by_cases h : kv.1 == k
  · simp [dget, List.find?_cons_of_pos, h]
  · simp only [dget, List.find?]
    rw [if_neg (by simpa using h)]
    simp [h]

/-- Assignment stores the value at the assigned key. -/
theorem dget_dset_self (d : Dict) (k : String) (v : JVal) :
    dget (dset d k v) k = some v := by
  induction d with
  | nil => simp [dset, dget_cons, dget]
  | cons kv rest ih =>
    by_cases h : kv.1 == k
    · simp [dset, h, dget_cons]
    · rw [dset]
      rw [if_neg (by simpa using h)]
      rw [dget_cons, if_neg (by simpa using h)]
      exact ih

/-- Assignment leaves other keys unchanged. -/
theorem dget_dset_ne (d : Dict) (k k' : String) (v : JVal) (hne : k ≠ k') :
    dget (dset d k v) k' = dget d k' := by
  induction d with
  | nil => simp [dset, dget_cons, dget, hne]
  | cons kv rest ih =>
    by_cases h : kv.1 == k
    · rw [dset, if_pos (by simpa using h)]
      rw [dget_cons, dget_cons]
      have hk : kv.1 = k := by simpa using h
      simp [hk, hne]
    · rw [dset, if_neg (by simpa using h)]
      rw [dget_cons, dget_cons]
      by_cases h2 : kv.1 == k'
      · simp [h2]
      · simp only [h2, if_neg, Bool.false_eq_true, ite_false]
        exact ih

/-- Merging a dict none of whose pairs mention k leaves k unchanged. -/
theorem dget_dmerge_of_none (d e : Dict) (k : String) (h : dget e k = none) :
    dget (dmerge d e) k = dget d k := by
  induction e generalizing d with
  | nil => rfl
  | cons kv rest ih =>
    rw [dget_cons] at h
    by_cases hk : kv.1 == k
    · simp [hk] at h
    · rw [if_neg (by simpa using hk)] at h
      show dget (dmerge (dset d kv.1 kv.2) rest) k = dget d k
      rw [ih _ h, dget_dset_ne]
      simpa using hk

/-- Python dict merge semantics: a key present in the right dict (whose keys
are unique, as Python dict keys are) ends up with the right dict's value. -/
theorem dget_dmerge_of_some (d e : Dict) (k : String) (v : JVal)
    (hnd : (e.map Prod.fst).Nodup) (h : dget e k = some v) :
    dget (dmerge d e) k = some v := by
  induction e generalizing d with
  | nil => simp [dget] at h
  | cons kv rest ih =>
    rw [dget_cons] at h
    rw [List.map_cons, List.nodup_cons] at hnd
    by_cases hk : kv.1 == k
    · rw [if_pos hk] at h
      have hkeq : kv.1 = k := by simpa using hk
      have hrest : dget rest k = none := by
        rcases hfind : (rest.find? (fun kv' => kv'.1 == k)) with _ | kv'
        · simp [dget, hfind]
        · have hmem := List.mem_of_find?_eq_some hfind
          have : kv'.1 == k := by
            have := List.find?_eq_some.mp hfind
            exact this.1
          have : kv'.1 = k := by simpa using this
          exact absurd (hkeq ▸ this ▸ List.mem_map_of_mem Prod.fst hmem) hnd.1
      show dget (dmerge (dset d kv.1 kv.2) rest) k = some v
      rw [dget_dmerge_of_none _ _ _ hrest, hkeq, dget_dset_self d k kv.2]
      exact h
    · rw [if_neg (by simpa using hk)] at h
      show dget (dmerge (dset d kv.1 kv.2) rest) k = some v
      exact ih _ hnd.2 h

/-- The identifier codec round-trips. -/
theorem uuidParse_uuidStr (n : Nat) : uuidParse? (uuidStr n) = some n := by
  have h1 : (List.replicate (n + 1) 'u').all (fun c => c == 'u') = true := by
    rw [List.all_eq_true]
    intro c hc
    rw [List.eq_of_mem_replicate hc]
    rfl
  simp [uuidParse?, uuidStr, h1, List.replicate_succ]

/-- A singleton list contributes at most one to any count. -/
theorem countP_singleton_le_one {α : Type} (p : α → Bool) (x : α) :
    List.countP p [x] ≤ 1 := by
  simp only [List.countP_cons, List.countP_nil]
  split <;> omega

/-- Appending one token of a family no member of the list belongs to keeps
every family's live count at one or below. -/
theorem oneLive_append (l : List RefreshToken) (tok : RefreshToken)
    (hinv : ∀ fid, l.countP (liveInFam fid) ≤ 1)
    (hfresh : ∀ t ∈ l, t.family_id ≠ tok.family_id) :
    ∀ fid, (l ++ [tok]).countP (liveInFam fid) ≤ 1 := by
  intro fid
  rw [List.countP_append]
  by_cases hf : tok.family_id = fid
  · have h0 : l.countP (liveInFam fid) = 0 := by
      apply List.countP_eq_zero.mpr
      intro t ht hlive
      have h2 : t.family_id = fid ∧ t.is_revoked = false := by simpa [liveInFam] using hlive
      exact absurd (h2.1.trans hf.symm) (hfresh t ht)
    rw [h0, Nat.zero_add]
    exact countP_singleton_le_one _ _
  · have h0 : List.countP (liveInFam fid) [tok] = 0 := by
      simp [List.countP_cons, liveInFam, hf]
    rw [h0, Nat.add_zero]
    exact hinv fid

/-- Mapping a liveness-lowering update over the token table keeps every
family's live count at one or below. -/
theorem oneLive_map_mono (l : List RefreshToken) (f : RefreshToken → RefreshToken)
    (hf : ∀ fid x, liveInFam fid (f x) = true → liveInFam fid x = true)
    (hinv : ∀ fid, l.countP (liveInFam fid) ≤ 1) :
    ∀ fid, (l.map f).countP (liveInFam fid) ≤ 1 := by
  intro fid
  rw [List.countP_map]
  exact le_trans (List.countP_mono_left (fun x _ hx => hf fid x hx)) (hinv fid)

/-- Rotation: revoking the live token of a family by id and inserting its
unrevoked successor in the same family keeps every family's live count at one
or below. -/
theorem oneLive_rotate (l : List RefreshToken) (told tnew : RefreshToken) (now : Int)
    (hinv : ∀ fid, l.countP (liveInFam fid) ≤ 1)
    (hmem : told ∈ l) (hrev : told.is_revoked = false)
    (hfam : tnew.family_id = told.family_id) :
    ∀ fid, ((l.map (idRevoke told.id now)) ++ [tnew]).countP (liveInFam fid) ≤ 1 := by
  intro fid
  rw [List.countP_append, List.countP_map]
  by_cases hf : fid = told.family_id
  · have h0 : l.countP (liveInFam fid ∘ idRevoke told.id now) = 0 := by
      apply countP_eq_zero_of_unique (p := liveInFam fid) (t := told) (hinv fid)
        hmem (by simp [liveInFam, hf, hrev])
      intro x hx
      rw [Function.comp_apply, liveInFam_idRevoke, Bool.and_eq_true] at hx
      refine ⟨hx.1, fun hxe => ?_⟩
      rw [hxe] at hx
      simp at hx
    rw [h0, Nat.zero_add]
    exact countP_singleton_le_one _ _
  · have hle : l.countP (liveInFam fid ∘ idRevoke told.id now) ≤ 1 := by
      refine le_trans (List.countP_mono_left (fun x _ hx => ?_)) (hinv fid)
      rw [Function.comp_apply, liveInFam_idRevoke, Bool.and_eq_true] at hx
      exact hx.1
    have h1 : List.countP (liveInFam fid) [tnew] = 0 := by
      simp [List.countP_cons, liveInFam, hfam]
      intro heq
      exact absurd heq.symm hf
    omega

/-- A token of the revoked family is revoked after the bulk family update. -/
theorem famRevoke_is_revoked (fid : Nat) (now : Int) (x : RefreshToken)
    (h : (famRevoke fid now x).family_id = fid) : (famRevoke fid now x).is_revoked = true := by
  by_cases hc : (x.family_id == fid && !x.is_revoked) = true
  · simp [famRevoke, hc]
  · rw [famRevoke, if_neg (by simpa using hc)] at h ⊢
    rw [Bool.and_eq_true, Bool.not_eq_true'] at hc
    push_neg at hc
    have := hc (by simpa using h)
    cases hx : x.is_revoked
    · exact absurd hx this
    · rfl

/-- C1: when the presented refresh token's hash matches a stored token with
revoked = true, refresh fails with TokenReuseDetected and, in the post-state,
every token of that family is revoked (the previously unrevoked ones
included); the revocation side effect is applied even though the operation
fails, and no new token is inserted. -/
theorem refresh_reuse_revokes_family
    (cfg : JWTConfig) (st : AuthState) (r : String) (ua ip : Option String)
    (now : Int) (fr : FreshPair) (t : RefreshToken)
    (hfind : get_refresh_token_by_hash st (hash_token r) = some t)
    (hrev : t.is_revoked = true) :
    (refresh_tokens cfg st r ua ip now fr).1 = .error .tokenReuseDetected ∧
    (∀ tok ∈ (refresh_tokens cfg st r ua ip now fr).2.tokens,
       tok.family_id = t.family_id → tok.is_revoked = true) ∧
    (refresh_tokens cfg st r ua ip now fr).2.tokens.length = st.tokens.length ∧
    (refresh_tokens cfg st r ua ip now fr).2.users = st.users := by
  have hstate : refresh_tokens cfg st r ua ip now fr =
      (.error .tokenReuseDetected,
        { st with tokens := st.tokens.map (famRevoke t.family_id now) }) := by
    simp [refresh_tokens, hfind, hrev, revoke_token_family]
  rw [hstate]
  refine ⟨rfl, ?_, by simp, rfl⟩
  intro tok htok hfam
  simp only [List.mem_map] at htok
  obtain ⟨x, _, rfl⟩ := htok
  exact famRevoke_is_revoked t.family_id now x hfam

/-- C4: refresh checks the stored token's revoked flag before its expiry: a
revoked-and-expired token triggers the theft response (TokenReuseDetected and
full-family revocation), an unrevoked expired token fails with
InvalidRefreshToken leaving the store unchanged, and an unknown hash fails
with InvalidRefreshToken leaving the store unchanged. -/
theorem refresh_checks_revoked_before_expiry
    (cfg : JWTConfig) (st : AuthState) (r : String) (ua ip : Option String)
    (now : Int) (fr : FreshPair) :
    (∀ t, get_refresh_token_by_hash st (hash_token r) = some t →
       t.is_revoked = true → t.expires_at < now →
       (refresh_tokens cfg st r ua ip now fr).1 = .error .tokenReuseDetected ∧
       ∀ tok ∈ (refresh_tokens cfg st r ua ip now fr).2.tokens,
         tok.family_id = t.family_id → tok.is_revoked = true) ∧
    (∀ t, get_refresh_token_by_hash st (hash_token r) = some t →
       t.is_revoked = false → t.expires_at < now →
       refresh_tokens cfg st r ua ip now fr = (.error .invalidRefreshToken, st)) ∧
    (get_refresh_token_by_hash st (hash_token r) = none →
       refresh_tokens cfg st r ua ip now fr = (.error .invalidRefreshToken, st)) := by
  refine ⟨?_, ?_, ?_⟩
  · intro t hfind hrev _
    have h := refresh_reuse_revokes_family cfg st r ua ip now fr t hfind hrev
    exact ⟨h.1, h.2.1⟩
  · intro t hfind hrev hexp
    simp [refresh_tokens, hfind, hrev, hexp]
  · intro hfind
    simp [refresh_tokens, hfind]

/-- C5: login with an email matching no user and login with an existing
active user's email but a non-matching password fail with the identical error
kind InvalidCredentials, leaving the store unchanged either way. -/
theorem login_indistinguishable_failures
    (cfg : JWTConfig) (pp : Argon2Params) (st : AuthState)
    (email password : String) (ua ip : Option String) (rsalt : String)
    (now : Int) (fr : FreshPair) :
    (get_user_by_email st email = none →
       login cfg pp st email password ua ip rsalt now fr = (.error .invalidCredentials, st)) ∧
    (∀ u, get_user_by_email st email = some u → u.is_active = true →
       PasswordService.verify u.password_hash password = false →
       login cfg pp st email password ua ip rsalt now fr = (.error .invalidCredentials, st)) := by
  constructor
  · intro h
    simp [login, h]
  · intro u h hact hver
    simp [login, h, hact, hver]

/-- C6: register with an email already present (after case normalization) in
the user store fails with EmailAlreadyExists and returns the store unchanged:
no user row is created and no token is issued. -/
theorem register_existing_email_fails_unchanged
    (cfg : JWTConfig) (pp : Argon2Params) (st : AuthState)
    (email password : String) (dn : Option String) (uid : Nat) (salt : String)
    (now : Int) (fr : FreshPair) (u : User)
    (hmem : u ∈ st.users) (hemail : u.email = normalizeEmail email) :
    register cfg pp st email password dn uid salt now fr = (.error .emailAlreadyExists, st) := by
  have hex : email_exists st email = true := by
    simp only [email_exists, decide_eq_true_eq]
    exact List.countP_pos_iff.mpr ⟨u, hmem, by simp [hemail]⟩
  simp [register, hex]

/-- C10: email_exists counts users regardless of is_active, so register with
the email of a soft-deleted user (in any letter case whose normalization
matches the stored lowercased email) fails with EmailAlreadyExists and leaves
the store unchanged. -/
theorem register_soft_deleted_email_blocked
    (cfg : JWTConfig) (pp : Argon2Params) (st : AuthState)
    (email password : String) (dn : Option String) (uid : Nat) (salt : String)
    (now : Int) (fr : FreshPair) (u : User)
    (hmem : u ∈ st.users) (hinactive : u.is_active = false)
    (hemail : u.email = normalizeEmail email) :
    email_exists st email = true ∧
    register cfg pp st email password dn uid salt now fr = (.error .emailAlreadyExists, st) := by
  have hex : email_exists st email = true := by
    simp only [email_exists, decide_eq_true_eq]
    exact List.countP_pos_iff.mpr ⟨u, hmem, by simp [hemail]⟩
  exact ⟨hex, by simp [register, hex]⟩

/-- A concrete stored refresh token used to exercise logout twice. -/
def logoutTok : RefreshToken :=
  { id := 1, user_id := 1, token_hash := hash_token "tok", family_id := 5,
    expires_at := 100, is_revoked := false, revoked_at := none,
    user_agent := none, ip_address := none }

/-- A store holding exactly that token. -/
def logoutState : AuthState :=
  { users := [], tokens := [logoutTok] }

/-- C3 counterexample: calling logout twice with the same refresh token
string returns true both times — the revoked row is still stored and
get_refresh_token_by_hash does not filter on is_revoked, so the second call
does not return false as claimed. -/
theorem double_logout_counterexample :
    (logout logoutState "tok" 0).1 = true ∧
    (logout (logout logoutState "tok" 0).2 "tok" 1).1 = true ∧
    ¬((logout (logout logoutState "tok" 0).2 "tok" 1).1 = false) := by
  decide

/-- C3 amended: the first logout revokes the token and returns true; a second
logout with the same token string finds the still-stored (now revoked) row
again and also returns true; false is returned only when no stored row
matches the hash. -/
theorem logout_twice_returns_true
    (st : AuthState) (r : String) (now now' : Int) (t : RefreshToken)
    (hfind : get_refresh_token_by_hash st (hash_token r) = some t) :
    (logout st r now).1 = true ∧
    (∀ tok ∈ (logout st r now).2.tokens, tok.id = t.id → tok.is_revoked = true) ∧
    (logout (logout st r now).2 r now').1 = true := by
  have hstate : logout st r now =
      (true, { st with tokens := st.tokens.map (idRevoke t.id now) }) := by
    simp [logout, hfind, revoke_refresh_token]
  rw [hstate]
  refine ⟨rfl, ?_, ?_⟩
  · intro tok htok hid
    simp only [List.mem_map] at htok
    obtain ⟨x, _, rfl⟩ := htok
    by_cases hx : (x.id == t.id) = true
    · simp [idRevoke, hx]
    · rw [idRevoke, if_neg (by simpa using hx)] at hid ⊢
      exact absurd (by simpa using hid) (by simpa using hx)
  · have hcomp : ((fun tk : RefreshToken => tk.token_hash == hash_token r) ∘ idRevoke t.id now)
        = (fun tk : RefreshToken => tk.token_hash == hash_token r) := by
      funext x
      by_cases hx : (x.id == t.id) = true <;> simp [idRevoke, hx]
    have hfind2 : get_refresh_token_by_hash
        { st with tokens := st.tokens.map (idRevoke t.id now) } (hash_token r)
        = some (idRevoke t.id now t) := by
      simp only [get_refresh_token_by_hash] at hfind ⊢
      rw [List.find?_map, hcomp, hfind]
      rfl
    simp [logout, hfind2]

/-- C2: every core operation preserves the token-family invariant that at
most one unrevoked refresh token exists per family: rotation revokes the
consumed token before inserting its successor in the same family, and
register/login create their token in a fresh family (freshness of the drawn
uuid4 family id is the explicit hypothesis). -/
theorem core_ops_preserve_one_live_per_family
    (cfg : JWTConfig) (pp : Argon2Params) (st : AuthState)
    (hinv : one_live_per_family st) :
    (∀ email password dn uid salt now fr,
       (∀ t ∈ st.tokens, t.family_id ≠ FreshPair.newFamilyId fr) →
       one_live_per_family (register cfg pp st email password dn uid salt now fr).2) ∧
    (∀ email password ua ip rsalt now fr,
       (∀ t ∈ st.tokens, t.family_id ≠ FreshPair.newFamilyId fr) →
       one_live_per_family (login cfg pp st email password ua ip rsalt now fr).2) ∧
    (∀ r ua ip now fr, one_live_per_family (refresh_tokens cfg st r ua ip now fr).2) ∧
    (∀ r now, one_live_per_family (logout st r now).2) ∧
    (∀ uid now, one_live_per_family (logout_all st uid now).2) := by
  refine ⟨?_, ?_, ?_, ?_, ?_⟩
  · -- register
    intro email password dn uid salt now fr hfresh
    by_cases hex : email_exists st email = true
    · simpa [register, hex] using hinv
    · have htok : (register cfg pp st email password dn uid salt now fr).2.tokens
          = st.tokens ++ [mintedToken cfg uid none none none now fr] := by
        simp [register, hex, create_user, create_token_pair, create_refresh_token]
      intro fid
      rw [htok]
      exact oneLive_append st.tokens _ hinv
        (by simpa [mintedToken] using hfresh) fid
  · -- login
    intro email password ua ip rsalt now fr hfresh
    cases hu : get_user_by_email st email with
    | none => simpa [login, hu] using hinv
    | some user =>
      by_cases hact : user.is_active = true
      · by_cases hver : PasswordService.verify user.password_hash password = true
        · have htok : (login cfg pp st email password ua ip rsalt now fr).2.tokens
              = st.tokens ++ [mintedToken cfg user.id none ua ip now fr] := by
            cases hrh : PasswordService.needs_rehash pp user.password_hash <;>
              simp [login, hu, hact, hver, hrh, update_user_password,
                create_token_pair, create_refresh_token]
          intro fid
          rw [htok]
          exact oneLive_append st.tokens _ hinv
            (by simpa [mintedToken] using hfresh) fid
        · simpa [login, hu, hact, Bool.not_eq_true _ ▸ hver] using hinv
      · have hact' : user.is_active = false := by
          cases h : user.is_active
          · rfl
          · exact absurd h hact
        simpa [login, hu, hact'] using hinv
  · -- refresh_tokens
    intro r ua ip now fr
    cases hfind : get_refresh_token_by_hash st (hash_token r) with
    | none => simpa [refresh_tokens, hfind] using hinv
    | some stored =>
      by_cases hrev : stored.is_revoked = true
      · have htok : (refresh_tokens cfg st r ua ip now fr).2.tokens
            = st.tokens.map (famRevoke stored.family_id now) := by
          simp [refresh_tokens, hfind, hrev, revoke_token_family]
        intro fid
        rw [htok]
        exact oneLive_map_mono st.tokens _
          (fun fid x hx => liveInFam_famRevoke hx) hinv fid
      · have hrev' : stored.is_revoked = false := by
          cases h : stored.is_revoked
          · rfl
          · exact absurd h hrev
        by_cases hexp : stored.expires_at < now
        · simpa [refresh_tokens, hfind, hrev', hexp] using hinv
        · cases hau : get_active_user st stored.user_id with
          | none => simpa [refresh_tokens, hfind, hrev', hexp, hau] using hinv
          | some u =>
            have htok : (refresh_tokens cfg st r ua ip now fr).2.tokens
                = (st.tokens.map (idRevoke stored.id now))
                    ++ [mintedToken cfg stored.user_id (some stored.family_id) ua ip now fr] := by
              simp [refresh_tokens, hfind, hrev', hexp, hau,
                revoke_refresh_token, create_token_pair, create_refresh_token]
            intro fid
            rw [htok]
            exact oneLive_rotate st.tokens stored
              (mintedToken cfg stored.user_id (some stored.family_id) ua ip now fr) now hinv
              (List.mem_of_find?_eq_some hfind) hrev' rfl fid
  · -- logout
    intro r now
    cases hfind : get_refresh_token_by_hash st (hash_token r) with
    | none => simpa [logout, hfind] using hinv
    | some stored =>
      have htok : (logout st r now).2.tokens = st.tokens.map (idRevoke stored.id now) := by
        simp [logout, hfind, revoke_refresh_token]
      intro fid
      rw [htok]
      refine oneLive_map_mono st.tokens _ (fun fid x hx => ?_) hinv fid
      rw [liveInFam_idRevoke, Bool.and_eq_true] at hx
      exact hx.1
  · -- logout_all
    intro uid now
    have htok : (logout_all st uid now).2.tokens = st.tokens.map (userRevoke uid now) := by
      simp [logout_all, revoke_all_user_tokens]
    intro fid
    rw [htok]
    exact oneLive_map_mono st.tokens _
      (fun fid x hx => liveInFam_userRevoke hx) hinv fid

/-- C8: PasswordService.verify returns true iff the password matches the
hash; both library error kinds (mismatch, malformed hash) are caught and
collapse to false, so the wrapper is a total Boolean function that never
raises: verify(hash(p), p) = true, verify(hash(p), q) = false for q ≠ p, and
verify(garbage, p) = false. -/
theorem password_verify_spec :
    (∀ pp salt p, PasswordService.verify (PasswordService.hash pp salt p) p = true) ∧
    (∀ pp salt p q, q ≠ p →
       PasswordService.verify (PasswordService.hash pp salt p) q = false) ∧
    (∀ g p, PasswordService.verify (.garbage g) p = false) ∧
    (∀ h p, PasswordService.verify h p = true ↔
       ∃ pp salt, h = PasswordService.hash pp salt p) := by
  refine ⟨?_, ?_, ?_, ?_⟩
  · intro pp salt p
    simp [PasswordService.verify, PasswordService.hash, argon2Verify, idealDigest]
  · intro pp salt p q hne
    have hpq : p ≠ q := fun h => hne h.symm
    simp [PasswordService.verify, PasswordService.hash, argon2Verify, idealDigest,
      Prod.ext_iff, hpq]
  · intro g p
    rfl
  · intro h p
    cases h with
    | garbage s =>
      simp [PasswordService.verify, argon2Verify, PasswordService.hash]
    | valid a =>
      obtain ⟨ap, asalt, adig⟩ := a
      constructor
      · intro hv
        have hd : adig = (asalt, p) := by
          by_contra hd
          simp [PasswordService.verify, argon2Verify, idealDigest, hd] at hv
        exact ⟨ap, asalt, by simp [PasswordService.hash, idealDigest, hd]⟩
      · rintro ⟨pp, salt, heq⟩
        simp only [PasswordService.hash, idealDigest, HashStr.valid.injEq,
          Argon2Encoded.mk.injEq] at heq
        obtain ⟨h1, h2, h3⟩ := heq
        simp [PasswordService.verify, argon2Verify, idealDigest, h2, h3]

/-- C7: an access token produced by create_access_token decodes successfully
before its expiry, with subject the string form of user_id and type "access";
get_user_id_from_token recovers the original user_id, and returns none
whenever decoding fails or the (string) subject does not parse as a UUID.
Configured issuer/audience values are assumed nonempty, since Python
truthiness makes create skip an empty-string claim that decode would then
require. -/
theorem access_token_roundtrip
    (cfg : JWTConfig) (uid : Nat) (jti : String) (now nowv : Int)
    (hiss : cfg.issuer ≠ some "") (haud : cfg.audience ≠ some "")
    (hexp : nowv < now + 60 * cfg.access_token_expire_minutes) :
    (∃ p, decode_access_token cfg (create_access_token cfg uid jti [] now).1 nowv = some p ∧
       p.sub = .s (uuidStr uid) ∧ p.type = .s "access") ∧
    get_user_id_from_token cfg (create_access_token cfg uid jti [] now).1 nowv
      = .ok (some uid) ∧
    (∀ tok n, decode_access_token cfg tok n = none →
       get_user_id_from_token cfg tok n = .ok none) ∧
    (∀ tok n p s, decode_access_token cfg tok n = some p → p.sub = .s s →
       uuidParse? s = none → get_user_id_from_token cfg tok n = .ok none) := by
  have hlt : ¬(now + 60 * cfg.access_token_expire_minutes ≤ nowv) := by omega
  have hdec : decode_access_token cfg (create_access_token cfg uid jti [] now).1 nowv
      = some { sub := .s (uuidStr uid),
               exp := .n (now + 60 * cfg.access_token_expire_minutes),
               iat := .n now, jti := .s jti, type := .s "access" } := by
    rcases hI : cfg.issuer with _ | i <;> rcases hA : cfg.audience with _ | a
    · simp [create_access_token, decode_access_token, jwtDecode, jwtEncode, dmerge,
        hI, hA, dget, issOk, audOk, hlt]
    · have ha2 : (a == "") = false := by
        rw [hA] at haud
        simpa using haud
      simp [create_access_token, decode_access_token, jwtDecode, jwtEncode, dmerge,
        hI, hA, ha2, dget, issOk, audOk, hlt]
    · have hi2 : (i == "") = false := by
        rw [hI] at hiss
        simpa using hiss
      simp [create_access_token, decode_access_token, jwtDecode, jwtEncode, dmerge,
        hI, hA, hi2, dget, issOk, audOk, hlt]
    · have hi2 : (i == "") = false := by
        rw [hI] at hiss
        simpa using hiss
      have ha2 : (a == "") = false := by
        rw [hA] at haud
        simpa using haud
      simp [create_access_token, decode_access_token, jwtDecode, jwtEncode, dmerge,
        hI, hA, hi2, ha2, dget, issOk, audOk, hlt]
  refine ⟨⟨_, hdec, rfl, rfl⟩, ?_, ?_, ?_⟩
  · simp [get_user_id_from_token, hdec, pyUUID, uuidParse_uuidStr]
  · intro tok n h
    simp [get_user_id_from_token, h]
  · intro tok n p s h hsub hparse
    simp [get_user_id_from_token, h, hsub, pyUUID, hparse]

/-- C9: create_access_token merges extra_claims over the standard claims
(Python dict |=), so any reserved key (sub, exp, iat, jti, type) supplied in
extra_claims replaces the standard value; in particular a token created with
extra_claims type t, for any t other than "access", is rejected by
decode_access_token. -/
theorem extra_claims_override
    (cfg : JWTConfig) (uid : Nat) (jti : String) (now : Int) :
    (∀ (extra : Dict) (k : String) (v : JVal),
       (extra.map Prod.fst).Nodup → k ∈ ["sub", "exp", "iat", "jti", "type"] →
       dget extra k = some v →
       dget ((create_access_token cfg uid jti extra now).1).payload k = some v) ∧
    (∀ (t : String) (nowv : Int), t ≠ "access" →
       decode_access_token cfg (create_access_token cfg uid jti [("type", .s t)] now).1 nowv
         = none) := by
  constructor
  · intro extra k v hnd _ hsome
    exact dget_dmerge_of_some _ extra k v hnd hsome
  · intro t nowv ht
    have htne : (JVal.s t == JVal.s "access") = false := by simpa using ht
    by_cases hle : now + 60 * cfg.access_token_expire_minutes ≤ nowv
    all_goals rcases hI : cfg.issuer with _ | i <;> rcases hA : cfg.audience with _ | a
    · simp [create_access_token, decode_access_token, jwtDecode, jwtEncode, dmerge, dset,
        hI, hA, dget, issOk, audOk, htne, hle]
    · by_cases ha : (a == "") = true <;>
        simp [create_access_token, decode_access_token, jwtDecode, jwtEncode, dmerge, dset,
          hI, hA, ha, dget, issOk, audOk, htne, hle]
    · by_cases hi : (i == "") = true <;>
        simp [create_access_token, decode_access_token, jwtDecode, jwtEncode, dmerge, dset,
          hI, hA, hi, dget, issOk, audOk, htne, hle]
    · by_cases hi : (i == "") = true <;> by_cases ha : (a == "") = true <;>
        simp [create_access_token, decode_access_token, jwtDecode, jwtEncode, dmerge, dset,
          hI, hA, hi, ha, dget, issOk, audOk, htne, hle]
    · simp [create_access_token, decode_access_token, jwtDecode, jwtEncode, dmerge, dset,
        hI, hA, dget, issOk, audOk, htne, hle]
    · by_cases ha : (a == "") = true <;>
        simp [create_access_token, decode_access_token, jwtDecode, jwtEncode, dmerge, dset,
          hI, hA, ha, dget, issOk, audOk, htne, hle]
    · by_cases hi : (i == "") = true <;>
        simp [create_access_token, decode_access_token, jwtDecode, jwtEncode, dmerge, dset,
          hI, hA, hi, dget, issOk, audOk, htne, hle]
    · by_cases hi : (i == "") = true <;> by_cases ha : (a == "") = true <;>
        simp [create_access_token, decode_access_token, jwtDecode, jwtEncode, dmerge, dset,
          hI, hA, hi, ha, dget, issOk, audOk, htne, hle]

/-- A concrete JWT configuration for witnesses. -/
def cfgW : JWTConfig := { secret_key := "k" }

/-- Concrete argon2 parameters for witnesses. -/
def ppW : Argon2Params := {}

/-- Concrete fresh randomness for witnesses. -/
def frW : FreshPair := { jti := "j", rawRefresh := "fresh", tokenRowId := 9, newFamilyId := 7 }

/-- A revoked stored token in family 5. -/
def tokRev : RefreshToken :=
  { id := 1, user_id := 1, token_hash := hash_token "r", family_id := 5,
    expires_at := 100, is_revoked := true, revoked_at := some 50,
    user_agent := none, ip_address := none }

/-- A live stored token in family 5. -/
def tokLive : RefreshToken :=
  { id := 2, user_id := 1, token_hash := hash_token "s", family_id := 5,
    expires_at := 100, is_revoked := false, revoked_at := none,
    user_agent := none, ip_address := none }

/-- An active user with a known password. -/
def userActive : User :=
  { id := 1, email := "a@b", password_hash := PasswordService.hash ppW "salt" "pw",
    display_name := none, is_active := true }

/-- A soft-deleted user. -/
def userInactive : User :=
  { id := 4, email := "c@d", password_hash := PasswordService.hash ppW "salt" "pw",
    display_name := none, is_active := false }

/-- A store with one revoked and one live token of the same family, plus an
active user owning them. -/
def stW : AuthState := { users := [userActive], tokens := [tokRev, tokLive] }

/-- C1 witness at a concrete store: the reuse of the revoked token fails with
TokenReuseDetected and revokes the whole family. -/
theorem refresh_reuse_revokes_family_witness :
    (refresh_tokens cfgW stW "r" none none 60 frW).1 = .error .tokenReuseDetected ∧
    (∀ tok ∈ (refresh_tokens cfgW stW "r" none none 60 frW).2.tokens,
       tok.family_id = tokRev.family_id → tok.is_revoked = true) ∧
    (refresh_tokens cfgW stW "r" none none 60 frW).2.tokens.length = stW.tokens.length ∧
    (refresh_tokens cfgW stW "r" none none 60 frW).2.users = stW.users := by
  have h := refresh_reuse_revokes_family cfgW stW "r" none none 60 frW tokRev
    (by decide) (by decide)
  exact h

/-- The family invariant holds in the concrete store. -/
theorem stW_one_live : one_live_per_family stW := by
  intro fid
  show List.countP (liveInFam fid) stW.tokens ≤ 1
  simp only [stW, List.countP_cons, List.countP_nil, liveInFam, tokRev, tokLive]
  split <;> simp

/-- C2 witness: the invariant is preserved by a concrete register (fresh
family 7) and a concrete successful refresh (rotation in family 5). -/
theorem core_ops_preserve_witness :
    one_live_per_family (register cfgW ppW stW "new@b" "pw" none 3 "salt" 0 frW).2 ∧
    one_live_per_family (refresh_tokens cfgW stW "s" none none 0 frW).2 ∧
    one_live_per_family (logout stW "s" 0).2 := by
  have h := core_ops_preserve_one_live_per_family cfgW ppW stW stW_one_live
  exact ⟨h.1 "new@b" "pw" none 3 "salt" 0 frW (by decide),
    h.2.2.1 "s" none none 0 frW, h.2.2.2.1 "s" 0⟩

/-- C3 witness for the amended statement, at the concrete logout store. -/
theorem logout_twice_returns_true_witness :
    (logout logoutState "tok" 0).1 = true ∧
    (∀ tok ∈ (logout logoutState "tok" 0).2.tokens,
       tok.id = logoutTok.id → tok.is_revoked = true) ∧
    (logout (logout logoutState "tok" 0).2 "tok" 1).1 = true := by
  exact logout_twice_returns_true logoutState "tok" 0 1 logoutTok (by decide)

/-- An expired revoked token (family 6). -/
def tokRevExp : RefreshToken :=
  { id := 11, user_id := 1, token_hash := hash_token "re", family_id := 6,
    expires_at := 100, is_revoked := true, revoked_at := some 50,
    user_agent := none, ip_address := none }

/-- An expired live token (family 8). -/
def tokLiveExp : RefreshToken :=
  { id := 12, user_id := 1, token_hash := hash_token "le", family_id := 8,
    expires_at := 100, is_revoked := false, revoked_at := none,
    user_agent := none, ip_address := none }

/-- A store holding one expired revoked and one expired live token. -/
def stExp : AuthState := { users := [userActive], tokens := [tokRevExp, tokLiveExp] }

/-- C4 witness: at time 200 (past both expiries) the revoked token still
triggers TokenReuseDetected, the live expired token fails with
InvalidRefreshToken leaving the store unchanged, and an unknown token fails
with InvalidRefreshToken. -/
theorem refresh_checks_revoked_before_expiry_witness :
    (refresh_tokens cfgW stExp "re" none none 200 frW).1 = .error .tokenReuseDetected ∧
    refresh_tokens cfgW stExp "le" none none 200 frW = (.error .invalidRefreshToken, stExp) ∧
    refresh_tokens cfgW stExp "nope" none none 200 frW = (.error .invalidRefreshToken, stExp) := by
  refine ⟨?_, ?_, ?_⟩
  · exact ((refresh_checks_revoked_before_expiry cfgW stExp "re" none none 200 frW).1
      tokRevExp (by decide) (by decide) (by decide)).1
  · exact (refresh_checks_revoked_before_expiry cfgW stExp "le" none none 200 frW).2.1
      tokLiveExp (by decide) (by decide) (by decide)
  · exact (refresh_checks_revoked_before_expiry cfgW stExp "nope" none none 200 frW).2.2
      (by decide)

/-- C5 witness: unknown email and wrong password produce the same
InvalidCredentials failure at a concrete store. -/
theorem login_indistinguishable_failures_witness :
    login cfgW ppW stW "x@y" "pw" none none "rs" 0 frW = (.error .invalidCredentials, stW) ∧
    login cfgW ppW stW "a@b" "wrong" none none "rs" 0 frW = (.error .invalidCredentials, stW) := by
  refine ⟨?_, ?_⟩
  · exact (login_indistinguishable_failures cfgW ppW stW "x@y" "pw" none none "rs" 0 frW).1
      (by decide)
  · exact (login_indistinguishable_failures cfgW ppW stW "a@b" "wrong" none none "rs" 0 frW).2
      userActive (by decide) (by decide) (by decide)

/-- C6 witness: registering the taken email (presented in upper case) fails
with EmailAlreadyExists and leaves the store unchanged. -/
theorem register_existing_email_fails_witness :
    register cfgW ppW stW "A@B" "pw" none 3 "salt" 0 frW = (.error .emailAlreadyExists, stW) := by
  exact register_existing_email_fails_unchanged cfgW ppW stW "A@B" "pw" none 3 "salt" 0 frW
    userActive (by decide) (by decide)

/-- A store holding only a soft-deleted user. -/
def stInactive : AuthState := { users := [userInactive], tokens := [] }

/-- C10 witness: the soft-deleted user's email (in upper case) is still
reported taken and register fails. -/
theorem register_soft_deleted_email_blocked_witness :
    email_exists stInactive "C@D" = true ∧
    register cfgW ppW stInactive "C@D" "pw" none 3 "salt" 0 frW
      = (.error .emailAlreadyExists, stInactive) := by
  exact register_soft_deleted_email_blocked cfgW ppW stInactive "C@D" "pw" none 3 "salt" 0 frW
    userInactive (by decide) (by decide) (by decide)

/-- C7 witness: round trip at a concrete configuration, user id 3, issue time
0 and verification time 10. -/
theorem access_token_roundtrip_witness :
    (∃ p, decode_access_token cfgW (create_access_token cfgW 3 "j" [] 0).1 10 = some p ∧
       p.sub = .s (uuidStr 3) ∧ p.type = .s "access") ∧
    get_user_id_from_token cfgW (create_access_token cfgW 3 "j" [] 0).1 10 = .ok (some 3) := by
  have h := access_token_roundtrip cfgW 3 "j" 0 10 (by decide) (by decide) (by decide)
  exact ⟨h.1, h.2.1⟩

/-- C8 witness: concrete matching, mismatching and garbage verifications. -/
theorem password_verify_spec_witness :
    PasswordService.verify (PasswordService.hash ppW "s" "pw") "pw" = true ∧
    PasswordService.verify (PasswordService.hash ppW "s" "pw") "x" = false ∧
    PasswordService.verify (.garbage "zzz") "pw" = false := by
  exact ⟨password_verify_spec.1 ppW "s" "pw",
    password_verify_spec.2.1 ppW "s" "pw" "x" (by decide),
    password_verify_spec.2.2.1 "zzz" "pw"⟩

/-- C9 witness: a concrete extra claim overriding the type marker, and the
resulting token being rejected. -/
theorem extra_claims_override_witness :
    dget ((create_access_token cfgW 3 "j" [("type", .s "admin")] 0).1).payload "type"
      = some (.s "admin") ∧
    decode_access_token cfgW (create_access_token cfgW 3 "j" [("type", .s "admin")] 0).1 10
      = none := by
  exact ⟨(extra_claims_override cfgW 3 "j" 0).1 [("type", .s "admin")] "type" (.s "admin")
      (by decide) (by decide) (by decide),
    (extra_claims_override cfgW 3 "j" 0).2 "admin" 10 (by decide)⟩
